import Mathlib

/-!
Shallow embedding of the CLIP-based product-search core from
`blog_clip.ipynb` (aws-samples/amazon-sagemaker-clip-search), together with
proofs of the specified properties.

The notebook's own Python code (`input_fn`, `predict_fn`, `encode_name`,
`encode_image`, the ingestion loop tagged `ingest_data_into_es`,
`get_image_from_item_id`, `search_products`, `display_images`) is embedded
directly.  The OpenSearch cluster itself is an external service; the parts
of its behaviour the notebook relies on (`es.index` upsert-by-id, k-NN
search under `cosinesimil` with `_source` exclusion) are modelled from the
spec's Vector Store contract and marked as such in their doc comments.

Embedding vectors are sequences of rationals.  Exact cosine ordering is
captured by the signed squared cosine `cosKey q v = sign(q·v)·(q·v)²/‖v‖²`,
a strictly monotone image of `cos(q,v) = (q·v)/(‖q‖‖v‖)` for a fixed
query `q`, so sorting by descending `cosKey` is sorting by descending
cosine similarity while staying inside `ℚ`.
-/

namespace ClipSearch

/-- An embedding vector: ordered sequence of rational coordinates. -/
abbrev Vec := List ℚ

/-- Dot product of two vectors (missing coordinates count as zero). -/
def dot : Vec → Vec → ℚ
  | [], _ => 0
  | _, [] => 0
  | a :: as, b :: bs => a * b + dot as bs

/-- Squared L2 norm. -/
def normSq (v : Vec) : ℚ := dot v v

/-- Modelled from the spec: the Vector Store orders k-NN results by cosine
similarity, "computed as the normalized dot product of the two vectors".
`cosKey q v` is the signed square of the cosine of `q` and `v`, scaled by
the (query-independent, positive) constant `‖q‖²`: for fixed `q` it is a
strictly monotone image of the cosine, so comparisons of `cosKey` agree
exactly with comparisons of cosine similarity while remaining rational. -/
def cosKey (q v : Vec) : ℚ :=
  let d := dot q v
  if 0 ≤ d then d ^ 2 / normSq v else -(d ^ 2) / normSq v

/-- A JSON-ish document field value: a string or an embedding vector. -/
inductive Value where
  | str (s : String)
  | vec (v : Vec)
deriving DecidableEq

/-- A document body: ordered field/value mapping, as a Python dict built by
inserting keys one at a time. -/
abbrev Body := List (String × Value)

/-- A stored record: document id paired with its body. -/
abbrev Record := String × Body

/-- The OpenSearch index contents: records keyed by document id. -/
abbrev Store := List Record

/-- Set `body[key] = v` on a Python dict: overwrite in place when the key
exists, append otherwise. -/
def setKey : Body → String → Value → Body
  | [], key, v => [(key, v)]
  | (k0, v0) :: rest, key, v =>
    if k0 = key then (k0, v) :: rest else (k0, v0) :: setKey rest key v

/-- The `knn_vector` field of a stored document (mapping field
`embeddings`); absent or non-vector values read as the empty vector. -/
def getVec (b : Body) : Vec :=
  match b.lookup "embeddings" with
  | some (Value.vec v) => v
  | _ => []

/-- Modelled from the spec: the Vector Store's result order — descending
cosine similarity to the query, "ties broken by ascending id for
determinism". -/
def recLE (q : Vec) (a b : Record) : Prop :=
  cosKey q (getVec b.2) < cosKey q (getVec a.2) ∨
    (cosKey q (getVec a.2) = cosKey q (getVec b.2) ∧ a.1 ≤ b.1)

instance (q : Vec) : DecidableRel (recLE q) := fun a b => by
  unfold recLE; infer_instance

/-- One k-NN search hit, as the notebook reads it off `res["hits"]["hits"]`:
`_id`, `_score`, and the projected `_source`. -/
structure Hit where
  id : String
  score : ℚ
  source : Body
deriving DecidableEq

/-- Modelled from the spec: `knn_query(vector, k)` of the external Vector
Store — "returns up to k records ordered by descending cosine similarity to
`vector`; ties broken by ascending id"; the `_source` projection drops the
fields listed in `exclude` (the notebook's request carries
`"_source": {"exclude": ["embeddings"]}`). -/
def knnQuery (store : Store) (q : Vec) (k : Nat) (exclude : List String) :
    List Hit :=
  ((store.insertionSort (recLE q)).take k).map fun rec =>
    { id := rec.1
      score := cosKey q (getVec rec.2)
      source := rec.2.filter fun kv => decide (kv.1 ∉ exclude) }

/-- The `es.search` call issued by `search_products` (notebook lines
791-806): size `k`, `_source` excluding `embeddings`, a `knn` clause on the
`embeddings` field with the query vector and `k`. -/
def search_hits (store : Store) (embedding : Vec) (k : Nat) : List Hit :=
  knnQuery store embedding k ["embeddings"]

/-- One row of the notebook's `dataset` frame: `meta` (item id, US-English
item name, main image id) merged with `images.csv.gz` metadata
(image id, height, width, path). -/
structure Row where
  item_id : String
  item_name_in_en_us : String
  main_image_id : String
  image_id : String
  height : Nat
  width : Nat
  path : String
deriving DecidableEq

/-- Embedding of `get_image_from_item_id` (notebook lines 166-180): look the item id up
in the `dataset` frame, download and open the image found at the row's
`path`, and return it with the row's `item_name_in_en_us`.  The image is
represented by the S3 path it is fetched from (the download and PIL decode
are external I/O); an id absent from `dataset` makes
`dataset.query(...).index[0]` raise, modelled as `none`. -/
def get_image_from_item_id (dataset : List Row) (item_id : String) :
    Option (String × String) :=
  match dataset.find? fun r => r.item_id == item_id with
  | none => none
  | some r => some (r.path, r.item_name_in_en_us)

/-- An image returned by `search_products`: the fetched picture (identified
by its dataset path) carrying the `name_and_score` label the notebook
attaches to it. -/
structure LabeledImage where
  image : String
  name_and_score : String
deriving DecidableEq

/-- The label `f'{hit["_score"]}:{item_name}'` set on each result image. -/
def scoreLabel (score : ℚ) (item_name : String) : String :=
  toString score ++ ":" ++ item_name

/-- Embedding of `search_products(embedding, k=3)` (notebook lines 791-813): run the
k-NN search, then for each hit take its `_id`, call
`get_image_from_item_id` on it, label the fetched image with
`f'{hit["_score"]}:{item_name}'`, and collect the images.  A hit id missing
from `dataset` raises inside the loop, modelled by `Option`. -/
def search_products (dataset : List Row) (store : Store) (embedding : Vec)
    (k : Nat := 3) : Option (List LabeledImage) :=
  (search_hits store embedding k).mapM fun hit =>
    (get_image_from_item_id dataset hit.id).map fun pr =>
      { image := pr.1, name_and_score := scoreLabel hit.score pr.2 }

/-- The document body built for a dataset row by the ingestion loop:
`body = record[['item_name_in_en_us']].to_dict()` followed by
`body['embeddings'] = embeddings[idx]`. -/
def rowBody (r : Row) (emb : Vec) : Body :=
  setKey [("item_name_in_en_us", Value.str r.item_name_in_en_us)]
    "embeddings" (Value.vec emb)

/-- Modelled from the spec: the external store's `es.index(index, id, body)`
— "Upsert: insert-or-overwrite keyed by identifier"; an existing record with
the same id is overwritten in place, a new id is appended. -/
def esIndex : Store → String → Body → Store
  | [], id_, b => [(id_, b)]
  | (i, b0) :: rest, id_, b =>
    if i = id_ then (i, b) :: rest else (i, b0) :: esIndex rest id_ b

/-- The ingestion loop (notebook lines 671-688, tagged
`ingest_data_into_es`): for each dataset row (paired with its
batch-transform embedding), build the two-field body and `es.index` it
under the row's `item_id`. -/
def ingest_data_into_es (store : Store) (rows : List (Row × Vec)) : Store :=
  rows.foldl (fun s rv => esIndex s rv.1.item_id (rowBody rv.1 rv.2)) store

/-- The same ingestion loop with the fallibility of each `es.index` call
made explicit: `fails id` says whether the upsert for that document id
raises.  The loop body has no exception handling, so the first raising call
propagates out of the loop (`Except.error` with the failing id) and no
later row is processed. -/
def ingestRun (fails : String → Bool) (store : Store)
    (rows : List (Row × Vec)) : Except String Store :=
  match rows with
  | [] => .ok store
  | rv :: rest =>
    if fails rv.1.item_id then .error rv.1.item_id
    else ingestRun fails (esIndex store rv.1.item_id (rowBody rv.1 rv.2)) rest

/-- Document ids present in a store, in list order. -/
def keys (s : Store) : List String := s.map Prod.fst

/-- The last body written for `id_` by the row list, if any. -/
def lastWrite (rows : List (Row × Vec)) (id_ : String) : Option Body :=
  match rows with
  | [] => none
  | rv :: rest =>
    match lastWrite rest id_ with
    | some b => some b
    | none =>
      if rv.1.item_id = id_ then some (rowBody rv.1 rv.2) else none

/-! ### The encoder endpoint (`code/clip_inference.py`, written by the
notebook) -/

/-- The deserialized data `input_fn` hands to `predict_fn`: either the
`inputs` field of a JSON payload (TEXT) or a decoded image (IMAGE). -/
inductive ClipData where
  | textInputs (inputs : List String)
  | imageData (img : String)
deriving DecidableEq

/-- Errors surfaced by the serving stack: the content-type assertion of
`input_fn` ("{ct} is an unknown type."), and a raising parse/decode
(`json.loads(...)["inputs"]` or `Image.open`). -/
inductive EncErr where
  | unsupportedMediaType (ct : String)
  | encodingError
deriving DecidableEq

/-- Embedding of `input_fn(request_body, request_content_type)` (notebook lines
315-325): assert the content type is `application/json` or
`application/x-image`, then parse the JSON body's `inputs` field
resp. decode the image bytes.  The JSON parse and the image decode are
external library calls, passed in as `parseInputs` / `openImage`
(returning `none` when they raise); the request body is opaque bytes. -/
def input_fn (parseInputs : String → Option (List String))
    (openImage : String → Option String)
    (request_body : String) (request_content_type : String) :
    Except EncErr ClipData :=
  if request_content_type = "application/json" then
    match parseInputs request_body with
    | some ins => .ok (.textInputs ins)
    | none => .error .encodingError
  else if request_content_type = "application/x-image" then
    match openImage request_body with
    | some img => .ok (.imageData img)
    | none => .error .encodingError
  else .error (.unsupportedMediaType request_content_type)

/-- The `ENCODE_TYPE` environment variable an endpoint is deployed with. -/
inductive EncodeType where
  | TEXT
  | IMAGE
deriving DecidableEq

/-- Embedding of `predict_fn(input_object, model)` (notebook lines 329-347): for TEXT,
tokenize the input object and run `encode_text`; for IMAGE, preprocess and
run `encode_image`.  The input object is passed to the tokenizer /
preprocessor unchanged — the code performs no rewriting of its input.  The
CLIP kernels (`tokenize`, `preprocess`, `encode_text`, `encode_image`) are
external and passed in as functions; handing a TEXT endpoint an image
object (or vice versa) makes the library call raise, modelled as `none`. -/
def predict_fn (encodeType : EncodeType)
    (tokenize : List String → List Nat) (preprocess : String → Vec)
    (encode_text : List Nat → Vec) (encode_image : Vec → Vec)
    (input_object : ClipData) : Option Vec :=
  match encodeType, input_object with
  | .TEXT, .textInputs ins => some (encode_text (tokenize ins))
  | .IMAGE, .imageData img => some (encode_image (preprocess img))
  | .TEXT, .imageData _ => none
  | .IMAGE, .textInputs _ => none

/-- The JSON payload a caller posts to the TEXT endpoint. -/
structure TextPayload where
  inputs : List String
deriving DecidableEq

/-- Embedding of `encode_name(item_name)` (notebook lines 737-739): caller-side prompt
templating — the payload sent to `text_predictor` is
`{"inputs": [f"this is a {item_name}"]}`. -/
def encode_name_payload (item_name : String) : TextPayload :=
  { inputs := ["this is a " ++ item_name] }

/-- The function `encode_name` as the round trip through the text predictor: it posts
`encode_name_payload` and returns the predictor's answer. -/
def encode_name (predict : TextPayload → Vec) (item_name : String) : Vec :=
  predict (encode_name_payload item_name)

/-! ### The query-facing surface -/

/-- Modelled from the spec: the query-facing request — "a request with one
of {image bytes, text string} and an optional integer k (default 3, must
be ≥1)". -/
structure QueryRequest where
  image : Option String
  text : Option String
  k : Int := 3
deriving DecidableEq

/-- Modelled from the spec: the error taxonomy of the Query Orchestrator
(only the members the query path can produce before/at validation are
needed here). -/
inductive QueryError where
  | invalidQuery
deriving DecidableEq

/-- Modelled from the spec: the Query Orchestrator's request handling —
"RECEIVED: validate that exactly one of {image, text} is present; fails
with `InvalidQuery` otherwise", with `k < 1` likewise rejected "before any
remote call".  The notebook drives queries by hand (`encode_name` /
`encode_image`, then `search_products`); this handler realizes the spec's
RECEIVED → ENCODING → SEARCHING sequence over those pieces.  Alongside the
outcome it returns how many Encoder calls and how many Vector Store calls
the request made, so the no-remote-call guarantee is part of the result. -/
def query_orchestrator (encodeImage : String → Vec)
    (encodeText : String → Vec) (store : Store) (req : QueryRequest) :
    Except QueryError (List Hit) × Nat × Nat :=
  match req.image, req.text with
  | some _, some _ => (.error .invalidQuery, 0, 0)
  | none, none => (.error .invalidQuery, 0, 0)
  | some img, none =>
    if req.k < 1 then (.error .invalidQuery, 0, 0)
    else (.ok (search_hits store (encodeImage img) req.k.toNat), 1, 1)
  | none, some t =>
    if req.k < 1 then (.error .invalidQuery, 0, 0)
    else
      (.ok (search_hits store (encodeText ("this is a " ++ t)) req.k.toNat),
        1, 1)

/-- Per-hit enrichment done inside the loop of `search_products`: fetch the
image and name for the hit's `_id` from the `dataset` table and attach the
`score:name` label. -/
def enrich (dataset : List Row) (hit : Hit) : Option LabeledImage :=
  (get_image_from_item_id dataset hit.id).map fun pr =>
    { image := pr.1, name_and_score := scoreLabel hit.score pr.2 }

/-- The result order the spec demands of hits: descending score, ties
broken by ascending id. -/
def hitOrder (a b : Hit) : Prop :=
  b.score < a.score ∨ (a.score = b.score ∧ a.id ≤ b.id)

/-! ### Helper lemmas -/

lemma search_products_eq_mapM (ds : List Row) (store : Store) (q : Vec)
    (k : Nat) :
    search_products ds store q k = (search_hits store q k).mapM (enrich ds) :=
  rfl

lemma recLE_total (q : Vec) : ∀ a b : Record, recLE q a b ∨ recLE q b a := by
  intro a b
  rcases lt_trichotomy (cosKey q (getVec a.2)) (cosKey q (getVec b.2)) with
    h | h | h
  · exact Or.inr (Or.inl h)
  · rcases le_total a.1 b.1 with hid | hid
    · exact Or.inl (Or.inr ⟨h, hid⟩)
    · exact Or.inr (Or.inr ⟨h.symm, hid⟩)
  · exact Or.inl (Or.inl h)

lemma recLE_trans (q : Vec) : ∀ a b c : Record,
    recLE q a b → recLE q b c → recLE q a c := by
  intro a b c hab hbc
  rcases hab with hab | ⟨hab, hida⟩
  · rcases hbc with hbc | ⟨hbc, _⟩
    · exact Or.inl (lt_trans hbc hab)
    · exact Or.inl (hbc ▸ hab)
  · rcases hbc with hbc | ⟨hbc, hidb⟩
    · exact Or.inl (by rw [hab]; exact hbc)
    · exact Or.inr ⟨hab.trans hbc, le_trans hida hidb⟩

lemma sorted_knnQuery (store : Store) (q : Vec) (k : Nat)
    (exclude : List String) :
    List.Sorted hitOrder (knnQuery store q k exclude) := by
  haveI : IsTotal Record (recLE q) := ⟨recLE_total q⟩
  haveI : IsTrans Record (recLE q) := ⟨fun a b c => recLE_trans q a b c⟩
  have hs : List.Sorted (recLE q) (store.insertionSort (recLE q)) :=
    List.sorted_insertionSort (recLE q) store
  have ht : List.Sorted (recLE q) ((store.insertionSort (recLE q)).take k) :=
    List.Pairwise.sublist (List.take_sublist k _) hs
  have := List.pairwise_map
    (R := hitOrder)
    (f := fun rec : Record =>
      ({ id := rec.1, score := cosKey q (getVec rec.2),
         source := rec.2.filter fun kv => decide (kv.1 ∉ exclude) } : Hit))
    (l := (store.insertionSort (recLE q)).take k)
  exact this.mpr (ht.imp fun h => h)

lemma length_knnQuery_le (store : Store) (q : Vec) (k : Nat)
    (exclude : List String) : (knnQuery store q k exclude).length ≤ k := by
  unfold knnQuery
  rw [List.length_map]
  exact le_trans (List.length_take_le k _) (le_refl k)

lemma mapM_option_length {α β : Type} (g : α → Option β) :
    ∀ (l : List α) (l' : List β), l.mapM g = some l' → l'.length = l.length := by
  intro l
  induction l with
  | nil =>
    intro l' h
    simp only [List.mapM_nil, pure, Option.some.injEq] at h
    simp [← h]
  | cons a t ih =>
    intro l' h
    rw [List.mapM_cons] at h
    cases hfa : g a with
    | none => rw [hfa] at h; simp at h
    | some b =>
      rw [hfa] at h
      cases hmt : t.mapM g with
      | none =>
        rw [hmt] at h
        simp at h
      | some bs =>
        rw [hmt] at h
        simp only [Option.pure_def, Option.bind_eq_bind, Option.some_bind,
          Option.some.injEq] at h
        subst h
        simp [ih bs hmt]

lemma mapM_option_mem {α β : Type} (g : α → Option β) :
    ∀ (l : List α) (l' : List β), l.mapM g = some l' →
      ∀ a ∈ l, ∃ b, g a = some b ∧ b ∈ l' := by
  intro l
  induction l with
  | nil => intro l' _ a ha; cases ha
  | cons x t ih =>
    intro l' h a ha
    rw [List.mapM_cons] at h
    cases hfx : g x with
    | none => rw [hfx] at h; simp at h
    | some b =>
      rw [hfx] at h
      cases hmt : t.mapM g with
      | none => rw [hmt] at h; simp at h
      | some bs =>
        rw [hmt] at h
        simp only [Option.pure_def, Option.bind_eq_bind, Option.some_bind,
          Option.some.injEq] at h
        subst h
        rcases List.mem_cons.mp ha with rfl | hat
        · exact ⟨b, hfx, List.mem_cons_self _ _⟩
        · rcases ih bs hmt a hat with ⟨b', hb', hmem⟩
          exact ⟨b', hb', List.mem_cons_of_mem _ hmem⟩

/-! ### Claim theorems -/

/-- C1: for every query vector and every `k ≥ 1`, the k-NN search issued by
`search_products` yields at most `k` hits, ordered by descending similarity
score with ties between equal-score records broken by ascending id, and the
image list `search_products` returns has at most `k` entries. -/
theorem search_returns_at_most_k_ranked (ds : List Row) (store : Store)
    (q : Vec) (k : Nat) (_hk : 1 ≤ k) :
    (search_hits store q k).length ≤ k ∧
      List.Sorted hitOrder (search_hits store q k) ∧
      ∀ imgs, search_products ds store q k = some imgs → imgs.length ≤ k := by
  refine ⟨length_knnQuery_le store q k _, sorted_knnQuery store q k _, ?_⟩
  intro imgs h
  rw [search_products_eq_mapM] at h
  rw [mapM_option_length (enrich ds) _ imgs h]
  exact length_knnQuery_le store q k _

/-- Witness for C1 at a concrete two-record store and `k = 1`. -/
theorem search_returns_at_most_k_ranked_witness :
    (1 : Nat) ≤ 1 ∧
      ((search_hits
            [("B", [("embeddings", Value.vec [0, 1])]),
             ("A", [("embeddings", Value.vec [1, 0])])] [1, 0] 1).length ≤ 1 ∧
        List.Sorted hitOrder
          (search_hits
            [("B", [("embeddings", Value.vec [0, 1])]),
             ("A", [("embeddings", Value.vec [1, 0])])] [1, 0] 1) ∧
        ∀ imgs,
          search_products [] [("B", [("embeddings", Value.vec [0, 1])]),
              ("A", [("embeddings", Value.vec [1, 0])])] [1, 0] 1 =
            some imgs → imgs.length ≤ 1) :=
  ⟨by decide,
    search_returns_at_most_k_ranked []
      [("B", [("embeddings", Value.vec [0, 1])]),
       ("A", [("embeddings", Value.vec [1, 0])])] [1, 0] 1 (by decide)⟩

/-- First body stored under a given id (Python-dict style lookup). -/
def lookupStore : Store → String → Option Body
  | [], _ => none
  | (i, b) :: rest, id_ => if i = id_ then some b else lookupStore rest id_

lemma esIndex_overwrite (s : Store) (id_ : String) (b b' : Body) :
    esIndex (esIndex s id_ b) id_ b' = esIndex s id_ b' := by
  induction s with
  | nil => simp [esIndex]
  | cons hd tl ih =>
    obtain ⟨i, b0⟩ := hd
    by_cases h : i = id_
    · simp [esIndex, h]
    · simp [esIndex, h, ih]

lemma lookup_esIndex (s : Store) (id_ id' : String) (b : Body) :
    lookupStore (esIndex s id_ b) id' =
      if id_ = id' then some b else lookupStore s id' := by
  induction s with
  | nil => simp [esIndex, lookupStore]
  | cons hd tl ih =>
    obtain ⟨i, b0⟩ := hd
    by_cases h : i = id_
    · subst h
      by_cases h' : i = id'
      · simp [esIndex, lookupStore, h']
      · simp [esIndex, lookupStore, h']
    · by_cases h' : i = id'
      · subst h'
        have : ¬ id_ = i := fun hh => h hh.symm
        simp [esIndex, h, lookupStore, this]
      · simp [esIndex, h, lookupStore, h', ih]

lemma keys_cons (i : String) (b : Body) (s : Store) :
    keys ((i, b) :: s) = i :: keys s := rfl

lemma mem_keys_cons {id_ i : String} {b : Body} {s : Store} :
    id_ ∈ keys ((i, b) :: s) ↔ id_ = i ∨ id_ ∈ keys s := by
  rw [keys_cons]; exact List.mem_cons

lemma keys_esIndex_mem (s : Store) (id_ : String) (b : Body)
    (h : id_ ∈ keys s) : keys (esIndex s id_ b) = keys s := by
  induction s with
  | nil => cases h
  | cons hd tl ih =>
    obtain ⟨i, b0⟩ := hd
    by_cases hi : i = id_
    · simp [esIndex, hi, keys_cons]
    · have htl : id_ ∈ keys tl := by
        rcases mem_keys_cons.mp h with h1 | h1
        · exact absurd h1.symm hi
        · exact h1
      rw [show esIndex ((i, b0) :: tl) id_ b = (i, b0) :: esIndex tl id_ b
          from by simp [esIndex, hi]]
      rw [keys_cons, keys_cons, ih htl]

lemma keys_esIndex_not_mem (s : Store) (id_ : String) (b : Body)
    (h : id_ ∉ keys s) : keys (esIndex s id_ b) = keys s ++ [id_] := by
  induction s with
  | nil => simp [esIndex, keys]
  | cons hd tl ih =>
    obtain ⟨i, b0⟩ := hd
    have hi : i ≠ id_ := fun hh => h (mem_keys_cons.mpr (Or.inl hh.symm))
    have htl : id_ ∉ keys tl := fun hh => h (mem_keys_cons.mpr (Or.inr hh))
    rw [show esIndex ((i, b0) :: tl) id_ b = (i, b0) :: esIndex tl id_ b
        from by simp [esIndex, hi]]
    rw [keys_cons, keys_cons, ih htl]
    rfl

lemma mem_keys_esIndex (s : Store) (id_ id' : String) (b : Body)
    (h : id' ∈ keys s) : id' ∈ keys (esIndex s id_ b) := by
  by_cases hm : id_ ∈ keys s
  · rw [keys_esIndex_mem s id_ b hm]; exact h
  · rw [keys_esIndex_not_mem s id_ b hm]; exact List.mem_append_left _ h

lemma self_mem_keys_esIndex (s : Store) (id_ : String) (b : Body) :
    id_ ∈ keys (esIndex s id_ b) := by
  by_cases hm : id_ ∈ keys s
  · rw [keys_esIndex_mem s id_ b hm]; exact hm
  · rw [keys_esIndex_not_mem s id_ b hm]; simp

lemma nodup_keys_esIndex (s : Store) (id_ : String) (b : Body)
    (h : (keys s).Nodup) : (keys (esIndex s id_ b)).Nodup := by
  by_cases hm : id_ ∈ keys s
  · rw [keys_esIndex_mem s id_ b hm]; exact h
  · rw [keys_esIndex_not_mem s id_ b hm]
    simp [List.nodup_append, h, hm]

lemma lookup_none_of_not_mem_keys (s : Store) (id_ : String)
    (h : id_ ∉ keys s) : lookupStore s id_ = none := by
  induction s with
  | nil => rfl
  | cons hd tl ih =>
    obtain ⟨i, b0⟩ := hd
    have hi : i ≠ id_ := fun hh => h (mem_keys_cons.mpr (Or.inl hh.symm))
    have htl : id_ ∉ keys tl := fun hh => h (mem_keys_cons.mpr (Or.inr hh))
    simp [lookupStore, hi, ih htl]

lemma store_ext (s1 : Store) :
    ∀ s2 : Store, (keys s1).Nodup → (keys s2).Nodup → keys s1 = keys s2 →
      (∀ id_, lookupStore s1 id_ = lookupStore s2 id_) → s1 = s2 := by
  induction s1 with
  | nil =>
    intro s2 _ _ hk _
    cases s2 with
    | nil => rfl
    | cons hd tl => simp [keys] at hk
  | cons hd tl ih =>
    intro s2 hn1 hn2 hk hl
    obtain ⟨i, b⟩ := hd
    cases s2 with
    | nil => simp [keys] at hk
    | cons hd2 tl2 =>
      obtain ⟨i2, b2⟩ := hd2
      rw [keys_cons, keys_cons] at hk
      injection hk with hi hkt
      subst hi
      have hb : b = b2 := by
        have := hl i
        simp [lookupStore] at this
        exact this
      subst hb
      rw [keys_cons] at hn1 hn2
      have hi1 : i ∉ keys tl := (List.nodup_cons.mp hn1).1
      have hn1' : (keys tl).Nodup := (List.nodup_cons.mp hn1).2
      have hi2 : i ∉ keys tl2 := (List.nodup_cons.mp hn2).1
      have hn2' : (keys tl2).Nodup := (List.nodup_cons.mp hn2).2
      have htl : tl = tl2 := by
        refine ih tl2 hn1' hn2' hkt ?_
        intro id_
        by_cases hid : i = id_
        · subst hid
          rw [lookup_none_of_not_mem_keys tl i hi1,
            lookup_none_of_not_mem_keys tl2 i hi2]
        · have := hl id_
          simpa [lookupStore, hid] using this
      rw [htl]

lemma ingest_cons (s : Store) (rv : Row × Vec) (rest : List (Row × Vec)) :
    ingest_data_into_es s (rv :: rest) =
      ingest_data_into_es (esIndex s rv.1.item_id (rowBody rv.1 rv.2)) rest :=
  rfl

lemma mem_keys_ingest_of_mem_keys (rows : List (Row × Vec)) :
    ∀ (s : Store) (id_ : String), id_ ∈ keys s →
      id_ ∈ keys (ingest_data_into_es s rows) := by
  induction rows with
  | nil => intro s id_ h; exact h
  | cons rv rest ih =>
    intro s id_ h
    rw [ingest_cons]
    exact ih _ id_ (mem_keys_esIndex _ _ _ _ h)

lemma row_mem_keys_ingest (rows : List (Row × Vec)) :
    ∀ (s : Store) (rv : Row × Vec), rv ∈ rows →
      rv.1.item_id ∈ keys (ingest_data_into_es s rows) := by
  induction rows with
  | nil => intro s rv h; cases h
  | cons hd rest ih =>
    intro s rv h
    rcases List.mem_cons.mp h with rfl | h1
    · rw [ingest_cons]
      exact mem_keys_ingest_of_mem_keys rest _ _ (self_mem_keys_esIndex _ _ _)
    · rw [ingest_cons]
      exact ih _ rv h1

lemma keys_ingest_of_all_mem (rows : List (Row × Vec)) :
    ∀ s : Store, (∀ rv ∈ rows, rv.1.item_id ∈ keys s) →
      keys (ingest_data_into_es s rows) = keys s := by
  induction rows with
  | nil => intro s _; rfl
  | cons rv rest ih =>
    intro s h
    rw [ingest_cons]
    have h0 : rv.1.item_id ∈ keys s := h rv (List.mem_cons_self _ _)
    rw [ih _ (fun x hx => by
      rw [keys_esIndex_mem s _ _ h0]
      exact h x (List.mem_cons_of_mem _ hx))]
    exact keys_esIndex_mem s _ _ h0

lemma nodup_keys_ingest (rows : List (Row × Vec)) :
    ∀ s : Store, (keys s).Nodup →
      (keys (ingest_data_into_es s rows)).Nodup := by
  induction rows with
  | nil => intro s h; exact h
  | cons rv rest ih =>
    intro s h
    rw [ingest_cons]
    exact ih _ (nodup_keys_esIndex _ _ _ h)

lemma lookup_ingest (rows : List (Row × Vec)) :
    ∀ (s : Store) (id_ : String),
      lookupStore (ingest_data_into_es s rows) id_ =
        match lastWrite rows id_ with
        | some b => some b
        | none => lookupStore s id_ := by
  induction rows with
  | nil => intro s id_; rfl
  | cons rv rest ih =>
    intro s id_
    rw [ingest_cons, ih]
    show _ = (match lastWrite (rv :: rest) id_ with
      | some b => some b
      | none => lookupStore s id_)
    rw [show lastWrite (rv :: rest) id_ =
        (match lastWrite rest id_ with
          | some b => some b
          | none =>
            if rv.1.item_id = id_ then some (rowBody rv.1 rv.2) else none)
      from rfl]
    cases hlw : lastWrite rest id_ with
    | some b => rfl
    | none =>
      rw [lookup_esIndex]
      by_cases h : rv.1.item_id = id_ <;> simp [h]

lemma mem_esIndex (s : Store) (id_ : String) (b : Body) (rec : Record)
    (h : rec ∈ esIndex s id_ b) : rec ∈ s ∨ rec = (id_, b) := by
  induction s with
  | nil =>
    simp [esIndex] at h
    exact Or.inr h
  | cons hd tl ih =>
    obtain ⟨i, b0⟩ := hd
    by_cases hi : i = id_
    · subst hi
      simp only [esIndex, if_pos rfl] at h
      rcases List.mem_cons.mp h with rfl | h1
      · exact Or.inr rfl
      · exact Or.inl (List.mem_cons_of_mem _ h1)
    · simp only [esIndex, if_neg hi] at h
      rcases List.mem_cons.mp h with rfl | h1
      · exact Or.inl (List.mem_cons_self _ _)
      · rcases ih h1 with h2 | h2
        · exact Or.inl (List.mem_cons_of_mem _ h2)
        · exact Or.inr h2

lemma mem_ingest (rows : List (Row × Vec)) :
    ∀ (s : Store) (rec : Record), rec ∈ ingest_data_into_es s rows →
      rec ∈ s ∨ ∃ rv ∈ rows, rec = (rv.1.item_id, rowBody rv.1 rv.2) := by
  induction rows with
  | nil => intro s rec h; exact Or.inl h
  | cons rv rest ih =>
    intro s rec h
    rw [ingest_cons] at h
    rcases ih _ rec h with h1 | ⟨x, hx, hrec⟩
    · rcases mem_esIndex _ _ _ _ h1 with h2 | h2
      · exact Or.inl h2
      · exact Or.inr ⟨rv, List.mem_cons_self _ _, h2⟩
    · exact Or.inr ⟨x, List.mem_cons_of_mem _ hx, hrec⟩

lemma rowBody_eq (r : Row) (emb : Vec) :
    rowBody r emb = [("item_name_in_en_us", Value.str r.item_name_in_en_us),
      ("embeddings", Value.vec emb)] := by
  simp [rowBody, setKey]

/-- C6: a k-NN query against an index with zero records returns an empty
sequence of results (and `search_products` an empty image list), not an
error. -/
theorem empty_index_returns_empty_sequence (ds : List Row) (q : Vec)
    (k : Nat) :
    search_hits [] q k = [] ∧ search_products ds [] q k = some [] := by
  have h : search_hits [] q k = [] := by simp [search_hits, knnQuery]
  refine ⟨h, ?_⟩
  rw [search_products_eq_mapM, h]
  rfl


lemma ingest_shape (rows : List (Row × Vec)) (rec : Record)
    (h : rec ∈ ingest_data_into_es [] rows) :
    ∃ rv ∈ rows, rec.1 = rv.1.item_id ∧
      rec.2 = [("item_name_in_en_us", Value.str rv.1.item_name_in_en_us),
        ("embeddings", Value.vec rv.2)] := by
  rcases mem_ingest rows [] rec h with h1 | ⟨rv, hrv, hrec⟩
  · cases h1
  · exact ⟨rv, hrv, by rw [hrec], by rw [hrec, rowBody_eq]⟩

/-- C4: upsert keyed by item id is idempotent — writing a record twice
under one id leaves the store list identical to writing it once; re-running
a whole ingestion over the same corpus reproduces exactly the store of a
single run (so one record per ingested id, no duplicates) and subsequent
k-NN queries return the same result set and scores. -/
theorem upsert_twice_indistinguishable (s : Store) (rows : List (Row × Vec))
    (id_ : String) (b : Body) (q : Vec) (k : Nat)
    (hnd : (keys s).Nodup) :
    esIndex (esIndex s id_ b) id_ b = esIndex s id_ b ∧
      ingest_data_into_es (ingest_data_into_es s rows) rows =
        ingest_data_into_es s rows ∧
      (keys (ingest_data_into_es s rows)).Nodup ∧
      search_hits (ingest_data_into_es (ingest_data_into_es s rows) rows) q k =
        search_hits (ingest_data_into_es s rows) q k := by
  have hone := esIndex_overwrite s id_ b b
  have hnod : (keys (ingest_data_into_es s rows)).Nodup :=
    nodup_keys_ingest rows s hnd
  have hre : ingest_data_into_es (ingest_data_into_es s rows) rows =
      ingest_data_into_es s rows := by
    refine store_ext _ _ (nodup_keys_ingest rows _ hnod) hnod ?_ ?_
    · exact keys_ingest_of_all_mem rows _ fun rv hrv =>
        row_mem_keys_ingest rows s rv hrv
    · intro id0
      rw [lookup_ingest rows _ id0]
      cases hlw : lastWrite rows id0 with
      | some b0 =>
        rw [lookup_ingest rows s id0, hlw]
      | none => rfl
  exact ⟨hone, hre, hnod, by rw [hre]⟩

/-- Witness for C4 at an empty initial store and a one-row corpus. -/
theorem upsert_twice_indistinguishable_witness :
    (keys ([] : Store)).Nodup ∧
      (esIndex (esIndex [] "B01" [("embeddings", Value.vec [1])]) "B01"
          [("embeddings", Value.vec [1])] =
        esIndex [] "B01" [("embeddings", Value.vec [1])] ∧
      ingest_data_into_es
          (ingest_data_into_es []
            [(⟨"B01", "red rose", "m", "i", 1, 1, "a.jpg"⟩, [1])])
          [(⟨"B01", "red rose", "m", "i", 1, 1, "a.jpg"⟩, [1])] =
        ingest_data_into_es []
          [(⟨"B01", "red rose", "m", "i", 1, 1, "a.jpg"⟩, [1])] ∧
      (keys (ingest_data_into_es []
          [(⟨"B01", "red rose", "m", "i", 1, 1, "a.jpg"⟩, [1])])).Nodup ∧
      search_hits
          (ingest_data_into_es
            (ingest_data_into_es []
              [(⟨"B01", "red rose", "m", "i", 1, 1, "a.jpg"⟩, [1])])
            [(⟨"B01", "red rose", "m", "i", 1, 1, "a.jpg"⟩, [1])]) [1] 3 =
        search_hits
          (ingest_data_into_es []
            [(⟨"B01", "red rose", "m", "i", 1, 1, "a.jpg"⟩, [1])]) [1] 3) :=
  ⟨by decide,
    upsert_twice_indistinguishable []
      [(⟨"B01", "red rose", "m", "i", 1, 1, "a.jpg"⟩, [1])]
      "B01" [("embeddings", Value.vec [1])] [1] 3 (by decide)⟩

/-- C10: every document the ingestion loop writes into the index from an
initially empty store has its id equal to the source row's `item_id` and a
body of exactly the two fields `item_name_in_en_us` (the row's US-English
name) and `embeddings` (the row's image-embedding vector); no other dataset
column is persisted. -/
theorem ingested_document_shape (rows : List (Row × Vec)) (rec : Record)
    (h : rec ∈ ingest_data_into_es [] rows) :
    ∃ rv ∈ rows, rec.1 = rv.1.item_id ∧
      rec.2 = [("item_name_in_en_us", Value.str rv.1.item_name_in_en_us),
        ("embeddings", Value.vec rv.2)] :=
  ingest_shape rows rec h

/-- Witness for C10 at a concrete one-row corpus. -/
theorem ingested_document_shape_witness :
    (("B01", [("item_name_in_en_us", Value.str "red rose"),
        ("embeddings", Value.vec [1])]) : Record) ∈
      ingest_data_into_es []
        [(⟨"B01", "red rose", "m", "i", 1, 1, "a.jpg"⟩, [1])] ∧
    ∃ rv ∈ [((⟨"B01", "red rose", "m", "i", 1, 1, "a.jpg"⟩ : Row), ([1] : Vec))],
      (("B01", [("item_name_in_en_us", Value.str "red rose"),
          ("embeddings", Value.vec [1])]) : Record).1 = rv.1.item_id ∧
      (("B01", [("item_name_in_en_us", Value.str "red rose"),
          ("embeddings", Value.vec [1])]) : Record).2 =
        [("item_name_in_en_us", Value.str rv.1.item_name_in_en_us),
          ("embeddings", Value.vec rv.2)] :=
  ⟨by decide,
    ingested_document_shape
      [(⟨"B01", "red rose", "m", "i", 1, 1, "a.jpg"⟩, [1])]
      ("B01", [("item_name_in_en_us", Value.str "red rose"),
        ("embeddings", Value.vec [1])]) (by decide)⟩

/-- C9: every hit of the k-NN search the query path issues (whose request
projects `_source` with `exclude: ["embeddings"]`) carries the display
metadata of its record but not the stored embedding vector: over a store
ingested from the dataset, a hit's `_source` is exactly the
`item_name_in_en_us` field and has no `embeddings` field. -/
theorem query_hits_exclude_embedding_vector (rows : List (Row × Vec))
    (q : Vec) (k : Nat) (hit : Hit)
    (h : hit ∈ search_hits (ingest_data_into_es [] rows) q k) :
    hit.source.lookup "embeddings" = none ∧
      ∃ rv ∈ rows, hit.id = rv.1.item_id ∧
        hit.source =
          [("item_name_in_en_us", Value.str rv.1.item_name_in_en_us)] := by
  rw [search_hits, knnQuery] at h
  rcases List.mem_map.mp h with ⟨rec, hrec, hhit⟩
  have hrec' : rec ∈ ingest_data_into_es [] rows :=
    (List.mem_insertionSort (recLE q)).mp
      (List.mem_of_mem_take hrec)
  rcases ingest_shape rows rec hrec' with ⟨rv, hrv, hid, hbody⟩
  have hsrc : hit.source =
      [("item_name_in_en_us", Value.str rv.1.item_name_in_en_us)] := by
    rw [← hhit]
    show rec.2.filter (fun kv => decide (kv.1 ∉ ["embeddings"])) = _
    rw [hbody]
    rfl
  refine ⟨?_, rv, hrv, ?_, hsrc⟩
  · rw [hsrc]
    rfl
  · rw [← hhit]
    exact hid

/-- Witness for C9 at a concrete one-row corpus and query (the score is
left as the unevaluated `cosKey` term, which the hit definitional unfolding
produces). -/
theorem query_hits_exclude_embedding_vector_witness :
    (⟨"B01", cosKey [1] [1],
        [("item_name_in_en_us", Value.str "red rose")]⟩ : Hit) ∈
      search_hits
        (ingest_data_into_es []
          [(⟨"B01", "red rose", "m", "i", 1, 1, "a.jpg"⟩, [1])]) [1] 3 ∧
    ((⟨"B01", cosKey [1] [1],
        [("item_name_in_en_us", Value.str "red rose")]⟩ :
        Hit).source.lookup "embeddings" = none ∧
      ∃ rv ∈ [((⟨"B01", "red rose", "m", "i", 1, 1, "a.jpg"⟩ : Row),
          ([1] : Vec))],
        (⟨"B01", cosKey [1] [1],
            [("item_name_in_en_us", Value.str "red rose")]⟩ :
            Hit).id = rv.1.item_id ∧
        (⟨"B01", cosKey [1] [1],
            [("item_name_in_en_us", Value.str "red rose")]⟩ :
            Hit).source =
          [("item_name_in_en_us", Value.str rv.1.item_name_in_en_us)]) :=
  ⟨List.Mem.head _,
    query_hits_exclude_embedding_vector
      [(⟨"B01", "red rose", "m", "i", 1, 1, "a.jpg"⟩, [1])] [1] 3
      ⟨"B01", cosKey [1] [1], [("item_name_in_en_us", Value.str "red rose")]⟩
      (List.Mem.head _)⟩


lemma ingestRun_ok (fails : String → Bool) :
    ∀ (rows : List (Row × Vec)) (s : Store),
      (∀ x ∈ rows, fails x.1.item_id = false) →
      ingestRun fails s rows = Except.ok (ingest_data_into_es s rows) := by
  intro rows
  induction rows with
  | nil => intro s _; rfl
  | cons rv rest ih =>
    intro s h
    have h0 : fails rv.1.item_id = false := h rv (List.mem_cons_self _ _)
    rw [show ingestRun fails s (rv :: rest) =
        ingestRun fails (esIndex s rv.1.item_id (rowBody rv.1 rv.2)) rest
      from by simp [ingestRun, h0]]
    rw [ih _ fun x hx => h x (List.mem_cons_of_mem _ hx)]
    rfl

lemma ingestRun_err (fails : String → Bool) (rv : Row × Vec)
    (post : List (Row × Vec)) :
    ∀ (pre : List (Row × Vec)) (s : Store),
      (∀ x ∈ pre, fails x.1.item_id = false) → fails rv.1.item_id = true →
      ingestRun fails s (pre ++ rv :: post) = Except.error rv.1.item_id := by
  intro pre
  induction pre with
  | nil =>
    intro s _ hrv
    simp [ingestRun, hrv]
  | cons x rest ih =>
    intro s h hrv
    have h0 : fails x.1.item_id = false := h x (List.mem_cons_self _ _)
    rw [List.cons_append]
    rw [show ingestRun fails s (x :: (rest ++ rv :: post)) =
        ingestRun fails (esIndex s x.1.item_id (rowBody x.1 x.2))
          (rest ++ rv :: post)
      from by simp [ingestRun, h0]]
    exact ih _ (fun y hy => h y (List.mem_cons_of_mem _ hy)) hrv

/-- C3 counterexample: a batch of two items in which the first item's
upsert raises makes the whole ingestion loop raise that item's error — the
second item is never processed and no (succeeded, failed, failed_ids)
summary is produced, contradicting the claim that a single item's failure
is recorded and skipped. -/
theorem ingestion_raises_on_single_failure_cex :
    ingestRun (fun id_ => id_ == "B01") []
      [(⟨"B01", "red rose", "m1", "i1", 1, 1, "a.jpg"⟩, [1]),
       (⟨"B02", "push broom kit", "m2", "i2", 1, 1, "b.jpg"⟩, [2])] =
      Except.error "B01" := rfl

/-- C3 (amended): the ingestion loop has no per-item error handling: the
first item whose upsert fails aborts the whole batch with that item's
error (items after it are not processed and no summary is reported), and
only a batch with no failing item completes, upserting every row. -/
theorem ingestion_aborts_on_first_failure (fails : String → Bool) (s : Store)
    (pre post : List (Row × Vec)) (rv : Row × Vec)
    (hpre : ∀ x ∈ pre, fails x.1.item_id = false)
    (hrv : fails rv.1.item_id = true) :
    ingestRun fails s (pre ++ rv :: post) = Except.error rv.1.item_id ∧
      ∀ rows, (∀ x ∈ rows, fails x.1.item_id = false) →
        ingestRun fails s rows = Except.ok (ingest_data_into_es s rows) :=
  ⟨ingestRun_err fails rv post pre s hpre hrv, fun rows h =>
    ingestRun_ok fails rows s h⟩

/-- Witness for the amended C3 at a concrete two-item batch whose first
item fails. -/
theorem ingestion_aborts_on_first_failure_witness :
    (∀ x ∈ ([] : List (Row × Vec)),
      (fun id_ => id_ == "B01") x.1.item_id = false) ∧
    (fun id_ => id_ == "B01")
      ((⟨"B01", "red rose", "m1", "i1", 1, 1, "a.jpg"⟩ : Row), ([1] : Vec)).1.item_id
        = true ∧
    (ingestRun (fun id_ => id_ == "B01") []
        ([] ++ ((⟨"B01", "red rose", "m1", "i1", 1, 1, "a.jpg"⟩ : Row), ([1] : Vec)) ::
          [(⟨"B02", "push broom kit", "m2", "i2", 1, 1, "b.jpg"⟩, [2])]) =
      Except.error
        ((⟨"B01", "red rose", "m1", "i1", 1, 1, "a.jpg"⟩ : Row),
          ([1] : Vec)).1.item_id ∧
      ∀ rows, (∀ x ∈ rows, (fun id_ => id_ == "B01") x.1.item_id = false) →
        ingestRun (fun id_ => id_ == "B01") [] rows =
          Except.ok (ingest_data_into_es [] rows)) :=
  ⟨fun x hx => absurd hx (List.not_mem_nil x), rfl,
    ingestion_aborts_on_first_failure (fun id_ => id_ == "B01") [] []
      [(⟨"B02", "push broom kit", "m2", "i2", 1, 1, "b.jpg"⟩, [2])]
      (⟨"B01", "red rose", "m1", "i1", 1, 1, "a.jpg"⟩, [1])
      (fun x hx => absurd hx (List.not_mem_nil x)) rfl⟩

lemma mapM_enrich_congr (ds : List Row) :
    ∀ l1 l2 : List Hit,
      l1.map (fun h => (h.id, h.score)) = l2.map (fun h => (h.id, h.score)) →
      l1.mapM (enrich ds) = l2.mapM (enrich ds) := by
  intro l1
  induction l1 with
  | nil =>
    intro l2 h
    cases l2 with
    | nil => rfl
    | cons y t2 => simp at h
  | cons x t ih =>
    intro l2 h
    cases l2 with
    | nil => simp at h
    | cons y t2 =>
      simp only [List.map_cons, List.cons.injEq] at h
      obtain ⟨hxy, ht⟩ := h
      have hid : x.id = y.id := congrArg Prod.fst hxy
      have hsc : x.score = y.score := congrArg Prod.snd hxy
      rw [List.mapM_cons, List.mapM_cons, ih t2 ht]
      rw [show enrich ds x = enrich ds y from by unfold enrich; rw [hid, hsc]]

/-- C5 counterexample: enrichment does consult a data source other than the
returned record.  The store's single record carries its display metadata
(`item_name_in_en_us = "stored-name"`) in the returned `_source`, yet
`search_products` against an empty `dataset` table raises (`none`), and
against a `dataset` table giving the id the name `"dataset-name"` it labels
the result with the dataset's name, not the record's stored one. -/
theorem enrichment_consults_dataset_cex :
    (search_hits
        [("B01", [("item_name_in_en_us", Value.str "stored-name"),
          ("embeddings", Value.vec [1])])] [1] 3).map
        (fun h => (h.id, h.source.lookup "item_name_in_en_us")) =
      [("B01", some (Value.str "stored-name"))] ∧
    search_products []
        [("B01", [("item_name_in_en_us", Value.str "stored-name"),
          ("embeddings", Value.vec [1])])] [1] 3 = none ∧
    search_products [⟨"B01", "dataset-name", "m", "i", 1, 1, "p.jpg"⟩]
        [("B01", [("item_name_in_en_us", Value.str "stored-name"),
          ("embeddings", Value.vec [1])])] [1] 3 =
      some [⟨"p.jpg", scoreLabel (cosKey [1] [1]) "dataset-name"⟩] :=
  ⟨rfl, rfl, rfl⟩

/-- C5 (amended): the enrichment step joins each returned hit id with the
image path and item name fetched from the external `dataset` table (via
`get_image_from_item_id`), ignoring the metadata embedded in the returned
record: the output depends only on the hits' ids and scores (two stores
whose hits agree on ids and scores yield identical results), and each
emitted entry is the matching dataset row's image labelled with the hit's
score and the row's name. -/
theorem enrichment_joins_dataset_table (ds : List Row) (s1 s2 : Store)
    (q1 q2 : Vec) (k1 k2 : Nat)
    (hsame : (search_hits s1 q1 k1).map (fun h => (h.id, h.score)) =
      (search_hits s2 q2 k2).map (fun h => (h.id, h.score))) :
    search_products ds s1 q1 k1 = search_products ds s2 q2 k2 ∧
      ∀ imgs, search_products ds s1 q1 k1 = some imgs →
        ∀ h ∈ search_hits s1 q1 k1, ∃ r ∈ ds, r.item_id = h.id ∧
          (⟨r.path, scoreLabel h.score r.item_name_in_en_us⟩ :
            LabeledImage) ∈ imgs := by
  constructor
  · rw [search_products_eq_mapM, search_products_eq_mapM]
    exact mapM_enrich_congr ds _ _ hsame
  · intro imgs himgs h hmem
    rw [search_products_eq_mapM] at himgs
    rcases mapM_option_mem (enrich ds) _ imgs himgs h hmem with ⟨b, hb, hbmem⟩
    unfold enrich get_image_from_item_id at hb
    cases hfind : (ds.find? fun r => r.item_id == h.id) with
    | none => rw [hfind] at hb; simp at hb
    | some r =>
      rw [hfind] at hb
      have hb' : LabeledImage.mk r.path
          (scoreLabel h.score r.item_name_in_en_us) = b := by
        simpa using hb
      have hbeq0 := List.find?_some hfind
      have hbeq : (r.item_id == h.id) = true := by simpa using hbeq0
      refine ⟨r, List.mem_of_find?_eq_some hfind, eq_of_beq hbeq, ?_⟩
      rw [hb']
      exact hbmem

/-- Witness for the amended C5 at a concrete store and dataset table. -/
theorem enrichment_joins_dataset_table_witness :
    (search_hits
        [("B01", [("item_name_in_en_us", Value.str "stored-name"),
          ("embeddings", Value.vec [1])])] [1] 3).map
        (fun h => (h.id, h.score)) =
      (search_hits
        [("B01", [("item_name_in_en_us", Value.str "stored-name"),
          ("embeddings", Value.vec [1])])] [1] 3).map
        (fun h => (h.id, h.score)) ∧
    (search_products [⟨"B01", "dataset-name", "m", "i", 1, 1, "p.jpg"⟩]
        [("B01", [("item_name_in_en_us", Value.str "stored-name"),
          ("embeddings", Value.vec [1])])] [1] 3 =
      search_products [⟨"B01", "dataset-name", "m", "i", 1, 1, "p.jpg"⟩]
        [("B01", [("item_name_in_en_us", Value.str "stored-name"),
          ("embeddings", Value.vec [1])])] [1] 3 ∧
      ∀ imgs,
        search_products [⟨"B01", "dataset-name", "m", "i", 1, 1, "p.jpg"⟩]
          [("B01", [("item_name_in_en_us", Value.str "stored-name"),
            ("embeddings", Value.vec [1])])] [1] 3 = some imgs →
        ∀ h ∈ search_hits
            [("B01", [("item_name_in_en_us", Value.str "stored-name"),
              ("embeddings", Value.vec [1])])] [1] 3,
          ∃ r ∈ [(⟨"B01", "dataset-name", "m", "i", 1, 1, "p.jpg"⟩ : Row)],
            r.item_id = h.id ∧
            (⟨r.path, scoreLabel h.score r.item_name_in_en_us⟩ :
              LabeledImage) ∈ imgs) :=
  ⟨rfl,
    enrichment_joins_dataset_table
      [⟨"B01", "dataset-name", "m", "i", 1, 1, "p.jpg"⟩]
      [("B01", [("item_name_in_en_us", Value.str "stored-name"),
        ("embeddings", Value.vec [1])])]
      [("B01", [("item_name_in_en_us", Value.str "stored-name"),
        ("embeddings", Value.vec [1])])] [1] [1] 3 3 rfl⟩

/-- C2 (spec-modelled request handler): a request carrying both modalities,
neither modality, or `k < 1` is rejected with `InvalidQuery` and the
request makes zero Encoder calls and zero Vector Store calls. -/
theorem invalid_query_rejected_before_remote_calls
    (encI encT : String → Vec) (store : Store) (req : QueryRequest)
    (h : (req.image.isSome ∧ req.text.isSome) ∨
      (req.image.isNone ∧ req.text.isNone) ∨ req.k < 1) :
    query_orchestrator encI encT store req =
      (Except.error QueryError.invalidQuery, 0, 0) := by
  obtain ⟨img, txt, k⟩ := req
  cases img with
  | some a =>
    cases txt with
    | some b => simp [query_orchestrator]
    | none =>
      rcases h with ⟨_, h2⟩ | ⟨h1, _⟩ | hk
      · simp at h2
      · simp at h1
      · simp [query_orchestrator, hk]
  | none =>
    cases txt with
    | some b =>
      rcases h with ⟨h1, _⟩ | ⟨_, h2⟩ | hk
      · simp at h1
      · simp at h2
      · simp [query_orchestrator, hk]
    | none => simp [query_orchestrator]

/-- Witness for C2 at a concrete request with both modalities set. -/
theorem invalid_query_rejected_before_remote_calls_witness :
    ((some "img" : Option String).isSome ∧
      (some "text" : Option String).isSome) ∧
    query_orchestrator (fun _ => []) (fun _ => []) []
        ⟨some "img", some "text", 3⟩ =
      (Except.error QueryError.invalidQuery, 0, 0) :=
  ⟨⟨rfl, rfl⟩,
    invalid_query_rejected_before_remote_calls (fun _ => []) (fun _ => []) []
      ⟨some "img", some "text", 3⟩ (Or.inl ⟨rfl, rfl⟩)⟩

/-- C7: `encode_name` performs the prompt templating itself — the payload
it posts to the TEXT endpoint is `{"inputs": ["this is a " + name]}` — and
the endpoint's `predict_fn` hands exactly that string to the CLIP
tokenizer/encoder, rewriting nothing. -/
theorem encode_name_templates_prompt (item_name : String)
    (predict : TextPayload → Vec) (tokenize : List String → List Nat)
    (preprocess : String → Vec) (encode_text : List Nat → Vec)
    (encode_image : Vec → Vec) :
    (encode_name_payload item_name).inputs = ["this is a " ++ item_name] ∧
      encode_name predict item_name =
        predict ⟨["this is a " ++ item_name]⟩ ∧
      predict_fn .TEXT tokenize preprocess encode_text encode_image
          (.textInputs (encode_name_payload item_name).inputs) =
        some (encode_text (tokenize ["this is a " ++ item_name])) :=
  ⟨rfl, rfl, rfl⟩

/-- C8: `input_fn` accepts exactly `application/json` (parsed as the JSON
payload's `inputs` field) and `application/x-image` (decoded as image
bytes) and fails with the unsupported-media-type assertion on every other
content type, without invoking the JSON parser or the image decoder (the
outcome is the same for arbitrary parser/decoder functions). -/
theorem input_fn_content_type_gate (ct body : String)
    (parse1 parse2 : String → Option (List String))
    (dec1 dec2 : String → Option String)
    (hjson : ct ≠ "application/json") (himg : ct ≠ "application/x-image") :
    input_fn parse1 dec1 body ct =
        Except.error (EncErr.unsupportedMediaType ct) ∧
      input_fn parse1 dec1 body ct = input_fn parse2 dec2 body ct ∧
      (∀ ins, parse1 body = some ins →
        input_fn parse1 dec1 body "application/json" =
          Except.ok (ClipData.textInputs ins)) ∧
      ∀ img, dec1 body = some img →
        input_fn parse1 dec1 body "application/x-image" =
          Except.ok (ClipData.imageData img) := by
  refine ⟨?_, ?_, ?_, ?_⟩
  · simp [input_fn, hjson, himg]
  · simp [input_fn, hjson, himg]
  · intro ins hp
    unfold input_fn
    rw [if_pos rfl, hp]
  · intro img ho
    unfold input_fn
    rw [if_neg (by decide), if_pos rfl, ho]

/-- Witness for C8 at the content type `text/plain` and concrete
parser/decoder functions. -/
theorem input_fn_content_type_gate_witness :
    ("text/plain" ≠ "application/json" ∧
      "text/plain" ≠ "application/x-image") ∧
    (input_fn (fun _ => some ["t"]) (fun _ => some "img") "x" "text/plain" =
        Except.error (EncErr.unsupportedMediaType "text/plain") ∧
      input_fn (fun _ => some ["t"]) (fun _ => some "img") "x" "text/plain" =
        input_fn (fun _ => none) (fun _ => none) "x" "text/plain" ∧
      (∀ ins, (fun _ => some ["t"]) "x" = some ins →
        input_fn (fun _ => some ["t"]) (fun _ => some "img") "x"
            "application/json" =
          Except.ok (ClipData.textInputs ins)) ∧
      ∀ img, (fun _ => some "img") "x" = some img →
        input_fn (fun _ => some ["t"]) (fun _ => some "img") "x"
            "application/x-image" =
          Except.ok (ClipData.imageData img)) :=
  ⟨⟨by decide, by decide⟩,
    input_fn_content_type_gate "text/plain" "x"
      (fun _ => some ["t"]) (fun _ => none) (fun _ => some "img")
      (fun _ => none) (by decide) (by decide)⟩

end ClipSearch
